import Mathlib

/-!
Verification of the `shngxx/point` real-time point-movement service.

Shallow embedding of the Go sources:
* `internal/domain/point/domain.go` — the bounded 2-D point (`Point`, `NewPoint`,
  `Point.Move`, `Point.Clamp`);
* `internal/infrastructure/db/point_repository.go` — the in-memory repository;
  Go pointers (`*point.Point`) are modelled by references (`Nat`) into an explicit
  heap, because the repository's copy-on-read behaviour is about aliasing;
* `internal/usecase/move_point_usecase.go` — the per-client batching session
  (`ClientSession.Push`, `MovePointUC.processBatch`);
* `pkg/ws/{router,room,manager,connection}.go` — message router, rooms,
  connection manager.

Go's `int` is modelled by `Int`: no claim's truth depends on 64-bit wraparound
(the clamp bounds its result independently of the magnitude of its input, and
both sides of every refinement statement use the same addition).  Buffered Go
channels accessed with `select { case ch <- v: default: }` are modelled as
bounded FIFO queues (`chanTrySend`).  Go map iteration order is unspecified;
association-list models fix the representative order of insertion, and no
theorem below depends on that choice.  Payloads written to a connection are
modelled opaquely as `Int`.
-/

namespace PointVerify

/-! ## Domain entity — internal/domain/point/domain.go -/

/-- `Point` from `domain.go`: a point on a plane with boundaries. -/
structure Point where
  X : Int
  Y : Int
  MaxX : Int
  MaxY : Int
deriving Repr, DecidableEq, Inhabited

/-- Default X coordinate (`DefaultX` in `domain.go`). -/
def DefaultX : Int := 400

/-- Default Y coordinate. -/
def DefaultY : Int := 300

/-- Default maximum X coordinate. -/
def DefaultMaxX : Int := 800

/-- Default maximum Y coordinate. -/
def DefaultMaxY : Int := 600

/-- `NewPoint` from `domain.go`: each argument equal to 0 is replaced by its
default, all other arguments are stored verbatim. -/
def NewPoint (x y maxX maxY : Int) : Point :=
  { X := if x = 0 then DefaultX else x
    Y := if y = 0 then DefaultY else y
    MaxX := if maxX = 0 then DefaultMaxX else maxX
    MaxY := if maxY = 0 then DefaultMaxY else maxY }

/-- `Point.Clamp` from `domain.go`: floor each coordinate at 0, then cap it at
the boundary minus one; the second test reads the already-floored value. -/
def Point.Clamp (p : Point) : Point :=
  let x1 := if p.X < 0 then 0 else p.X
  let x2 := if x1 ≥ p.MaxX then p.MaxX - 1 else x1
  let y1 := if p.Y < 0 then 0 else p.Y
  let y2 := if y1 ≥ p.MaxY then p.MaxY - 1 else y1
  { p with X := x2, Y := y2 }

/-- `Point.Move` from `domain.go`: add the offsets, then clamp. -/
def Point.Move (p : Point) (dx dy : Int) : Point :=
  Point.Clamp { p with X := p.X + dx, Y := p.Y + dy }

/-! ## Bounded channels

A send performed as `select { case ch <- v: default: }` on a buffered channel
succeeds exactly when the buffer has room; otherwise the value is dropped and
the producer continues immediately. -/

/-- Non-blocking send on a buffered channel of capacity `cap`. Returns the new
buffer contents and whether the value was accepted. -/
def chanTrySend {α : Type} (cap : Nat) (q : List α) (v : α) : List α × Bool :=
  if q.length < cap then (q ++ [v], true) else (q, false)

/-! ## Move use case — internal/usecase/move_point_usecase.go -/

/-- `MoveCommand` from `move_point_usecase.go`. -/
structure MoveCommand where
  ID : Int
  DX : Int
  DY : Int
deriving Repr, DecidableEq, Inhabited

/-- Capacity of the per-session command inbox: `make(chan MoveCommand, 50)` in
`MovePointUC.Init`. -/
def moveChanCap : Nat := 50

/-- Capacity of the per-session position outbox: `make(chan *point.Point, 5)`
in `MovePointUC.Init`. -/
def positionChanCap : Nat := 5

/-- `ClientSession.Push`: non-blocking send of a command into the session's
command inbox; on a saturated inbox the command is silently dropped. -/
def ClientSession.Push (inbox : List MoveCommand) (cmd : MoveCommand) : List MoveCommand :=
  (chanTrySend moveChanCap inbox cmd).1

/-! ## Go runtime plumbing shared by the repository and the WebSocket layer -/

/-- A `context.Context` as the repository observes it: only whether `ctx.Err()`
is non-nil (the context has been cancelled). -/
structure GoContext where
  cancelled : Bool
deriving Repr, DecidableEq

/-- Go `error` values produced by the modelled code: either a `*ws.Error`
(structured code + message) or a plain error string (`fmt.Errorf` / sentinel
errors such as `context.Canceled` and `websocket.ErrCloseSent`). -/
inductive GoError where
  | ws (Code : String) (Message : String)
  | str (s : String)
deriving Repr, DecidableEq

/-- Association-list lookup, the model of a Go map read `m[k]`. -/
def mapLookup {α β : Type} [DecidableEq α] : List (α × β) → α → Option β
  | [], _ => none
  | (k, v) :: rest, key => if k = key then some v else mapLookup rest key

/-! ## Heap of `*point.Point` values

`PointRepository.Get` hands out a pointer to a *copy* of the stored point, and
the batch loop mutates that copy in place before `Save` writes it back.  To
state anything about that aliasing discipline, pointers are explicit: a `Ref`
is an address, a `Heap` maps addresses to `Point` values, and `Heap.alloc`
models `&point.Point{...}`.  Cells that were never allocated read as the zero
value; no executed path reads them. -/

/-- Address of a heap-allocated `point.Point`. -/
abbrev Ref := Nat

/-- Heap of allocated points. -/
structure Heap where
  nextRef : Ref
  cells : Ref → Point

/-- The empty heap. -/
def Heap.empty : Heap := { nextRef := 0, cells := fun _ => ⟨0, 0, 0, 0⟩ }

/-- Overwrite the cell at `r` (a Go assignment through a pointer). -/
def Heap.write (h : Heap) (r : Ref) (p : Point) : Heap :=
  { h with cells := fun x => if x = r then p else h.cells x }

/-- Allocate a fresh cell holding `p` (`&point.Point{...}`). -/
def Heap.alloc (h : Heap) (p : Point) : Ref × Heap :=
  (h.nextRef, { nextRef := h.nextRef + 1, cells := fun x => if x = h.nextRef then p else h.cells x })

/-! ## In-memory repository — internal/infrastructure/db/point_repository.go -/

/-- State of `db.PointRepository`: the `points map[int]*point.Point` field (as
an association list of ids to heap references) together with the heap the
pointers live in. -/
structure DBState where
  points : List (Int × Ref)
  heap : Heap

/-- Well-formedness of a repository state: every stored reference has been
allocated.  Holds for every state the code constructs. -/
def DBState.WF (st : DBState) : Prop :=
  ∀ pr ∈ st.points, pr.2 < st.heap.nextRef

instance (st : DBState) : Decidable st.WF := by
  unfold DBState.WF; infer_instance

/-- `NewPointRepository`: starts with the default point stored under id 1. -/
def NewPointRepository : DBState :=
  let rh := Heap.empty.alloc (NewPoint 0 0 0 0)
  { points := [(1, rh.1)], heap := rh.2 }

/-- `PointRepository.Get`: fails on a cancelled context; otherwise returns a
pointer to a fresh copy of the stored point, or — for an unknown id — a fresh
default point taking its boundaries from an existing entry (the first one the
map iteration yields), without inserting anything. -/
def PointRepository.Get (ctx : GoContext) (st : DBState) (id : Int) :
    Except GoError (Ref × DBState) :=
  if ctx.cancelled then
    .error (.str "context canceled")
  else
    let pval :=
      match mapLookup st.points id with
      | some r => st.heap.cells r
      | none =>
        match st.points.head? with
        | some pr => NewPoint 0 0 (st.heap.cells pr.2).MaxX (st.heap.cells pr.2).MaxY
        | none => NewPoint 0 0 0 0
    let rh := st.heap.alloc { X := pval.X, Y := pval.Y, MaxX := pval.MaxX, MaxY := pval.MaxY }
    .ok (rh.1, { st with heap := rh.2 })

/-- `PointRepository.Save`: fails on a cancelled context or a nil point.  For a
new id it allocates a fresh entry via `NewPoint` (boundaries from the first
existing entry, or the defaults); for an existing id it overwrites the stored
point's fields through the stored pointer. -/
def PointRepository.Save (ctx : GoContext) (st : DBState) (id : Int) (p : Option Ref) :
    Except GoError DBState :=
  if ctx.cancelled then
    .error (.str "context canceled")
  else
    match p with
    | none => .error (.str "point cannot be nil")
    | some pref =>
      let pv := st.heap.cells pref
      match mapLookup st.points id with
      | none =>
        match st.points.head? with
        | some pr =>
          let rh := st.heap.alloc (NewPoint pv.X pv.Y (st.heap.cells pr.2).MaxX (st.heap.cells pr.2).MaxY)
          .ok { points := (id, rh.1) :: st.points, heap := rh.2 }
        | none =>
          let rh := st.heap.alloc (NewPoint pv.X pv.Y 0 0)
          .ok { points := (id, rh.1) :: st.points, heap := rh.2 }
      | some rid =>
        .ok { st with heap := st.heap.write rid { X := pv.X, Y := pv.Y, MaxX := pv.MaxX, MaxY := pv.MaxY } }

/-- `MovePointUC.processBatch`: fetch the point (a fresh copy), apply every
drained command in submission order through `Point.Move` (mutating the copy in
place), persist it, and — only if the resulting position differs from
`lastSentPos` — record the new position in `lastSentPos` and attempt a
non-blocking send on the position outbox.  Returns the updated repository
state, the updated `lastSentPos`, and the updated outbox. -/
def MovePointUC.processBatch (ctx : GoContext) (st : DBState) (id : Int)
    (commands : List MoveCommand) (lastSentPos : Point) (positionChan : List Point) :
    Except GoError (DBState × Point × List Point) :=
  match PointRepository.Get ctx st id with
  | .error e => .error e
  | .ok (p, st1) =>
    let h2 := commands.foldl (fun h cmd => h.write p ((h.cells p).Move cmd.DX cmd.DY)) st1.heap
    let st2 : DBState := { st1 with heap := h2 }
    match PointRepository.Save ctx st2 id (some p) with
    | .error e => .error e
    | .ok st3 =>
      let pv := st3.heap.cells p
      if pv.X ≠ lastSentPos.X ∨ pv.Y ≠ lastSentPos.Y then
        let lastSent' := { lastSentPos with X := pv.X, Y := pv.Y }
        let positionChan' :=
          (chanTrySend positionChanCap positionChan { X := pv.X, Y := pv.Y, MaxX := 0, MaxY := 0 }).1
        .ok (st3, lastSent', positionChan')
      else
        .ok (st3, lastSentPos, positionChan)

/-! ## Connections — pkg/ws/connection.go

A `*ws.Connection` is shared between the manager, the rooms and the pumps, so
connections also get reference semantics: a `ConnHeap` maps connection ids to
their mutable state.  Of the connection's state the claims need the closed
flag, the bounded write channel, and the subscription set. -/

/-- Capacity of a connection's write channel: `make(chan any, 256)`. -/
def writeChanCap : Nat := 256

/-- Mutable state of one `ws.Connection`. -/
structure ConnState where
  closed : Bool
  outbox : List Int
  subs : List String
deriving Repr, DecidableEq

/-- Heap of connection states, indexed by connection identity. -/
abbrev ConnHeap := Nat → ConnState

/-- `Connection.WriteJSON`: an already-closed connection yields
`websocket.ErrCloseSent`; otherwise the value is offered to the bounded write
channel and silently dropped (with a logged warning, returning nil) when the
channel is full.  The connection's context is cancelled only by `Close`, which
sets the closed flag first, so the closed check subsumes the `ctx.Done` arm. -/
def Connection.WriteJSON (h : ConnHeap) (c : Nat) (v : Int) : ConnHeap × Option GoError :=
  if (h c).closed then
    (h, some (.str "websocket: close sent"))
  else
    let q := (chanTrySend writeChanCap (h c).outbox v).1
    (fun x => if x = c then { h c with outbox := q } else h x, none)

/-- `Connection.Close`: idempotent; flips the closed flag exactly once (and in
the source also cancels the context and closes the transport). -/
def Connection.Close (h : ConnHeap) (c : Nat) : ConnHeap :=
  if (h c).closed then h
  else fun x => if x = c then { h c with closed := true } else h x

/-- `Connection.Subscribe`: records room membership on the connection side
(`c.rooms[roomID] = true`). -/
def Connection.Subscribe (h : ConnHeap) (c : Nat) (roomID : String) : ConnHeap :=
  fun x =>
    if x = c then
      { h x with subs := if roomID ∈ (h x).subs then (h x).subs else (h x).subs ++ [roomID] }
    else h x

/-! ## Rooms — the `ws.Room` part of the WebSocket package -/

/-- A `ws.Room`: a named set of member connections (`clients map[*Connection]bool`).
Room metadata is independent of membership and not needed by any claim. -/
structure Room where
  id : String
  clients : List Nat
deriving Repr, DecidableEq

/-- `Room.Join`: returns false for an existing member; otherwise records the
membership on both sides (the connection's `Subscribe` runs while the room's
lock is still held) and returns true. -/
def Room.Join (r : Room) (h : ConnHeap) (c : Nat) : Bool × Room × ConnHeap :=
  if c ∈ r.clients then
    (false, r, h)
  else
    (true, { r with clients := r.clients ++ [c] }, Connection.Subscribe h c r.id)

/-- `Room.Leave`: returns false for a non-member; otherwise removes the
membership on both sides. -/
def Room.Leave (r : Room) (h : ConnHeap) (c : Nat) : Bool × Room × ConnHeap :=
  if c ∈ r.clients then
    (true, { r with clients := r.clients.filter (· ≠ c) },
      fun x => if x = c then { h x with subs := (h x).subs.filter (· ≠ r.id) } else h x)
  else
    (false, r, h)

/-- `Room.Size`: the point-in-time member count. -/
def Room.Size (r : Room) : Nat := r.clients.length

/-- `Room.Broadcast`: snapshot the member list, then `WriteJSON` to each member
independently; a failed delivery is logged and does not abort the rest. -/
def Room.Broadcast (r : Room) (h : ConnHeap) (message : Int) : ConnHeap :=
  r.clients.foldl (fun h' c => (Connection.WriteJSON h' c message).1) h

/-! ## Router — the `ws.Router` part of the WebSocket package -/

/-- A `ws.Message` envelope.  `TypeTag` models the Go field `Type` (the word
itself is reserved in Lean); `Data` models the raw JSON payload. -/
structure RMessage where
  Action : String
  Data : String
  TypeTag : String
deriving Repr, DecidableEq

/-- A registered `ws.MessageHandler`. -/
abbrev RHandler := Nat → RMessage → Except GoError Unit

/-- The router's `handlers map[string]MessageHandler`, as the map it denotes. -/
abbrev Handlers := String → Option RHandler

/-- The handler table of a fresh `NewRouter()`. -/
def Router.emptyHandlers : Handlers := fun _ => none

/-- `Router.Handle`: last registration for a given action wins. -/
def Router.Handle (hs : Handlers) (action : String) (handler : RHandler) : Handlers :=
  fun a => if a = action then some handler else hs a

/-- The distinguished `ErrUnknownAction` value from the router. -/
def ErrUnknownAction : GoError := .ws "UNKNOWN_ACTION" "Unknown message action"

/-- `Router.Route`: look up by `Action`; if absent and the `Type` tag is
non-empty, retry by `Type`; if still absent fail with `ErrUnknownAction`,
otherwise return the invoked handler's result. -/
def Router.Route (hs : Handlers) (conn : Nat) (message : RMessage) : Except GoError Unit :=
  match hs message.Action with
  | some handler => handler conn message
  | none =>
    if message.TypeTag ≠ "" then
      match hs message.TypeTag with
      | some handler => handler conn message
      | none => .error ErrUnknownAction
    else
      .error ErrUnknownAction

/-! ## Manager — the `ws.Manager` part of the WebSocket package -/

/-- State of a `ws.Manager`: the connection heap, the connection registry
(`connections map[*Connection]bool`), the room registry (`rooms map[string]*Room`),
whether the `shutdown` channel has been closed, and whether `shutdownOnce` has
already run. -/
structure MState where
  conns : ConnHeap
  connections : List Nat
  rooms : List (String × Room)
  shutdownClosed : Bool
  shutdownOnceDone : Bool

/-- `Manager.GetConnectionCount`. -/
def Manager.GetConnectionCount (m : MState) : Nat := m.connections.length

/-- The "room not found" error value built by `BroadcastToRoom` and `LeaveRoom`. -/
def ErrRoomNotFound : GoError := .ws "ROOM_NOT_FOUND" "Room not found"

/-- `Manager.BroadcastToRoom`: unknown room ids are a reported error and no
state is touched; otherwise the room broadcasts and the call returns nil. -/
def Manager.BroadcastToRoom (m : MState) (roomID : String) (message : Int) :
    MState × Option GoError :=
  match mapLookup m.rooms roomID with
  | none => (m, some ErrRoomNotFound)
  | some room => ({ m with conns := room.Broadcast m.conns message }, none)

/-- `Manager.BroadcastToAll`: snapshot the registry, then `WriteJSON` to every
tracked connection. -/
def Manager.BroadcastToAll (m : MState) (message : Int) : MState :=
  { m with conns := m.connections.foldl (fun h c => (Connection.WriteJSON h c message).1) m.conns }

/-- `Manager.Shutdown`: under `shutdownOnce`, close the `shutdown` channel and
close every tracked connection (the registry itself is not touched here: each
connection is unregistered later by its own handler's deferred cleanup).  The
shutdown-timeout race is real time and outside the sequential model: this is
the path where the closing loop completes.  Always returns nil. -/
def Manager.Shutdown (m : MState) : MState :=
  if m.shutdownOnceDone then m
  else
    { m with
      shutdownOnceDone := true
      shutdownClosed := true
      conns := m.connections.foldl (fun h c => Connection.Close h c) m.conns }

/-! ## Spec-side definition used for the refinement statement of claim C1 -/

/-- Written from the spec's wording, to be compared with the fold the code
performs: one step "adding (dx,dy) and then clamping to [0,maxX)×[0,maxY)",
i.e. moving to the nearest integer point of `[0, maxX-1] × [0, maxY-1]`. -/
def clampedAddSpec (maxX maxY : Int) (pos d : Int × Int) : Int × Int :=
  (min (max (pos.1 + d.1) 0) (maxX - 1), min (max (pos.2 + d.2) 0) (maxY - 1))

/-! ## Concrete states used by witnesses and counterexamples -/

/-- A live (non-cancelled) context. -/
def exCtx : GoContext := ⟨false⟩

/-- A point as `NewPoint` constructs it from negative boundary arguments,
which are stored verbatim. -/
def c3point : Point := NewPoint 5 5 (-3) (-3)

/-- Extract the payload of a successful batch, falling back to `dflt`
(used only to chain the concrete C2 trace; every step of that trace
succeeds). -/
def getOkBatch (e : Except GoError (DBState × Point × List Point))
    (dflt : DBState × Point × List Point) : DBState × Point × List Point :=
  match e with
  | .ok v => v
  | .error _ => dflt

/-- One batch tick of the session loop for entity id 1. -/
def c2step (cmds : List MoveCommand) (s : DBState × Point × List Point) :
    DBState × Point × List Point :=
  getOkBatch (MovePointUC.processBatch exCtx s.1 1 cmds s.2.1 s.2.2) s

/-- Session start: fresh repository (point (400,300), bounds 800×600),
`lastSentPos = (-1,-1)`, empty position outbox. -/
def c2s0 : DBState × Point × List Point := (NewPointRepository, ⟨-1, -1, 0, 0⟩, [])

/-- Ticks 1–5, each draining one `{dx:1}` command: positions 401..405, each
emitted, filling the capacity-5 outbox. -/
def c2s1 : DBState × Point × List Point := c2step [⟨1, 1, 0⟩] c2s0

/-- Tick 2. -/
def c2s2 : DBState × Point × List Point := c2step [⟨1, 1, 0⟩] c2s1

/-- Tick 3. -/
def c2s3 : DBState × Point × List Point := c2step [⟨1, 1, 0⟩] c2s2

/-- Tick 4. -/
def c2s4 : DBState × Point × List Point := c2step [⟨1, 1, 0⟩] c2s3

/-- Tick 5: emits (405,300), the last value actually emitted on the outbox. -/
def c2s5 : DBState × Point × List Point := c2step [⟨1, 1, 0⟩] c2s4

/-- Tick 6: moves to (406,300); the outbox is full, so the send is dropped —
yet `lastSentPos` is updated to (406,300). -/
def c2s6 : DBState × Point × List Point := c2step [⟨1, 1, 0⟩] c2s5

/-- The forwarding loop receives one value from the outbox (FIFO). -/
def c2s6d : DBState × Point × List Point := (c2s6.1, c2s6.2.1, c2s6.2.2.drop 1)

/-- Tick 7, draining one `{dx:-1}` command: moves back to (405,300). -/
def c2s7 : DBState × Point × List Point := c2step [⟨1, -1, 0⟩] c2s6d

/-- A heap of fresh, open connections with empty outboxes and no
subscriptions. -/
def c6heap : ConnHeap := fun _ => ⟨false, [], []⟩

/-- A handler that accepts every message. -/
def routeOkHandler : RHandler := fun _ _ => .ok ()

/-- A handler table whose only registration is under the empty-string action. -/
def c7handlers : Handlers := Router.Handle Router.emptyHandlers "" routeOkHandler

/-- A message whose action has no handler and whose type tag is empty. -/
def c7msg : RMessage := { Action := "move", Data := "", TypeTag := "" }

/-- A manager tracking one empty room `point_1`. -/
def c8mgr : MState :=
  { conns := fun _ => ⟨false, [], []⟩, connections := [],
    rooms := [("point_1", ⟨"point_1", []⟩)], shutdownClosed := false, shutdownOnceDone := false }

/-- A manager tracking one live connection (id 7) and no rooms. -/
def c5mgr : MState :=
  { conns := fun _ => ⟨false, [], []⟩, connections := [7], rooms := [],
    shutdownClosed := false, shutdownOnceDone := false }

/-- A manager tracking two live connections, both members of room `point_1`. -/
def c5wMgr : MState :=
  { conns := fun _ => ⟨false, [], []⟩, connections := [0, 1],
    rooms := [("point_1", ⟨"point_1", [0, 1]⟩)],
    shutdownClosed := false, shutdownOnceDone := false }

/-! ## Helper lemmas -/

theorem Heap.cells_write_self (h : Heap) (r : Ref) (p : Point) :
    (h.write r p).cells r = p := by
  simp [Heap.write]

theorem Heap.cells_write_other (h : Heap) (r x : Ref) (p : Point) (hx : x ≠ r) :
    (h.write r p).cells x = h.cells x := by
  simp [Heap.write, hx]

theorem Heap.write_nextRef (h : Heap) (r : Ref) (p : Point) :
    (h.write r p).nextRef = h.nextRef := rfl

/-- Folding in-place `Move`s over the cell at `r` is the pure fold of `Move`
over the cell's initial value. -/
theorem foldl_write_Move_cells (cmds : List MoveCommand) (h : Heap) (r : Ref) :
    (cmds.foldl (fun h' cmd => h'.write r ((h'.cells r).Move cmd.DX cmd.DY)) h).cells r
      = cmds.foldl (fun q cmd => q.Move cmd.DX cmd.DY) (h.cells r) := by
  induction cmds generalizing h with
  | nil => rfl
  | cons c cs ih =>
    simp only [List.foldl_cons, ih, Heap.cells_write_self]

/-- The write fold only touches the cell at `r`. -/
theorem foldl_write_Move_cells_other (cmds : List MoveCommand) (h : Heap) (r x : Ref)
    (hx : x ≠ r) :
    (cmds.foldl (fun h' cmd => h'.write r ((h'.cells r).Move cmd.DX cmd.DY)) h).cells x
      = h.cells x := by
  induction cmds generalizing h with
  | nil => rfl
  | cons c cs ih =>
    simp only [List.foldl_cons, ih, Heap.cells_write_other _ _ _ _ hx]

theorem foldl_write_Move_nextRef (cmds : List MoveCommand) (h : Heap) (r : Ref) :
    (cmds.foldl (fun h' cmd => h'.write r ((h'.cells r).Move cmd.DX cmd.DY)) h).nextRef
      = h.nextRef := by
  induction cmds generalizing h with
  | nil => rfl
  | cons c cs ih => simp only [List.foldl_cons, ih, Heap.write_nextRef]

theorem Point.Move_MaxX (p : Point) (dx dy : Int) : (p.Move dx dy).MaxX = p.MaxX := rfl

theorem Point.Move_MaxY (p : Point) (dx dy : Int) : (p.Move dx dy).MaxY = p.MaxY := rfl

/-- One `Move` step agrees with the spec's clamped addition as soon as the
boundaries are positive. -/
theorem Point.Move_spec (p : Point) (dx dy : Int) (hx : 1 ≤ p.MaxX) (hy : 1 ≤ p.MaxY) :
    ((p.Move dx dy).X, (p.Move dx dy).Y) = clampedAddSpec p.MaxX p.MaxY (p.X, p.Y) (dx, dy) := by
  simp only [Point.Move, Point.Clamp, clampedAddSpec, Prod.mk.injEq, Int.min_def, Int.max_def]
  constructor <;> split_ifs <;> omega

/-- The fold of `Move` the batch loop performs agrees with the spec's fold of
clamped addition. -/
theorem foldl_Move_spec (cmds : List MoveCommand) (p : Point)
    (hx : 1 ≤ p.MaxX) (hy : 1 ≤ p.MaxY) :
    ((cmds.foldl (fun q cmd => q.Move cmd.DX cmd.DY) p).X,
     (cmds.foldl (fun q cmd => q.Move cmd.DX cmd.DY) p).Y)
      = cmds.foldl (fun pos cmd => clampedAddSpec p.MaxX p.MaxY pos (cmd.DX, cmd.DY)) (p.X, p.Y) := by
  induction cmds generalizing p with
  | nil => rfl
  | cons c cs ih =>
    simp only [List.foldl_cons]
    rw [← Point.Move_spec p c.DX c.DY hx hy]
    have hrw := ih (p.Move c.DX c.DY) (by rw [Point.Move_MaxX]; exact hx)
      (by rw [Point.Move_MaxY]; exact hy)
    rw [hrw, Point.Move_MaxX, Point.Move_MaxY]

theorem mapLookup_mem {α β : Type} [DecidableEq α] {l : List (α × β)} {k : α} {v : β}
    (h : mapLookup l k = some v) : (k, v) ∈ l := by
  induction l with
  | nil => simp [mapLookup] at h
  | cons pr rest ih =>
    obtain ⟨k', v'⟩ := pr
    simp only [mapLookup] at h
    by_cases hk : k' = k
    · rw [if_pos hk] at h
      cases h
      subst hk
      exact List.mem_cons_self _ _
    · rw [if_neg hk] at h
      exact List.mem_cons_of_mem _ (ih h)

theorem Heap.alloc_fst (h : Heap) (p : Point) : (h.alloc p).1 = h.nextRef := rfl

theorem Heap.cells_alloc_self (h : Heap) (p : Point) :
    (h.alloc p).2.cells h.nextRef = p := by
  simp [Heap.alloc]

theorem Heap.cells_alloc_other (h : Heap) (p : Point) (x : Ref) (hx : x ≠ h.nextRef) :
    (h.alloc p).2.cells x = h.cells x := by
  simp [Heap.alloc, hx]

/-- `Get` on a present id: a fresh copy of the stored point is allocated and
returned; the id registry is untouched. -/
theorem PointRepository.Get_found (ctx : GoContext) (st : DBState) (id : Int) (r₀ : Ref)
    (hc : ctx.cancelled = false) (hlook : mapLookup st.points id = some r₀) :
    PointRepository.Get ctx st id
      = .ok (st.heap.nextRef, { st with heap := (st.heap.alloc (st.heap.cells r₀)).2 }) := by
  unfold PointRepository.Get
  rw [hc]
  simp only [Bool.false_eq_true, if_false, hlook]
  rfl

/-- `Save` on a present id: overwrite the stored point's fields through the
stored pointer with the fields of the argument. -/
theorem PointRepository.Save_found (ctx : GoContext) (st : DBState) (id : Int) (rid ρ : Ref)
    (hc : ctx.cancelled = false) (hlook : mapLookup st.points id = some rid) :
    PointRepository.Save ctx st id (some ρ)
      = .ok { st with heap := st.heap.write rid (st.heap.cells ρ) } := by
  unfold PointRepository.Save
  rw [hc]
  simp only [Bool.false_eq_true, if_false, hlook]

/-- Fold-preservation for the foldl of `Move` on the boundaries. -/
theorem foldl_Move_MaxX (cmds : List MoveCommand) (p : Point) :
    (cmds.foldl (fun q cmd => q.Move cmd.DX cmd.DY) p).MaxX = p.MaxX := by
  induction cmds generalizing p with
  | nil => rfl
  | cons c cs ih => simp only [List.foldl_cons, ih, Point.Move_MaxX]

theorem foldl_Move_MaxY (cmds : List MoveCommand) (p : Point) :
    (cmds.foldl (fun q cmd => q.Move cmd.DX cmd.DY) p).MaxY = p.MaxY := by
  induction cmds generalizing p with
  | nil => rfl
  | cons c cs ih => simp only [List.foldl_cons, ih, Point.Move_MaxY]

/-- Closed-form equation for `processBatch` when the id is present: fetch a
fresh copy at address `st.heap.nextRef`, fold the in-place `Move`s over it,
write the result back through the stored pointer `r₀`, then record-and-try-send
if the position changed. -/
theorem processBatch_eq (ctx : GoContext) (st : DBState) (id : Int)
    (cmds : List MoveCommand) (ls : Point) (ch : List Point) (r₀ : Ref)
    (hc : ctx.cancelled = false) (hlook : mapLookup st.points id = some r₀) :
    MovePointUC.processBatch ctx st id cmds ls ch =
      (let ρ := st.heap.nextRef
       let h2 := cmds.foldl (fun h cmd => h.write ρ ((h.cells ρ).Move cmd.DX cmd.DY))
         (st.heap.alloc (st.heap.cells r₀)).2
       let pv := (h2.write r₀ (h2.cells ρ)).cells ρ
       if pv.X ≠ ls.X ∨ pv.Y ≠ ls.Y then
         .ok ({ points := st.points, heap := h2.write r₀ (h2.cells ρ) },
              { ls with X := pv.X, Y := pv.Y },
              (chanTrySend positionChanCap ch { X := pv.X, Y := pv.Y, MaxX := 0, MaxY := 0 }).1)
       else
         .ok ({ points := st.points, heap := h2.write r₀ (h2.cells ρ) }, ls, ch)) := by
  unfold MovePointUC.processBatch
  rw [PointRepository.Get_found ctx st id r₀ hc hlook]
  have hsave := PointRepository.Save_found ctx
    { points := st.points,
      heap := cmds.foldl
        (fun h cmd => h.write st.heap.nextRef ((h.cells st.heap.nextRef).Move cmd.DX cmd.DY))
        (st.heap.alloc (st.heap.cells r₀)).2 }
    id r₀ st.heap.nextRef hc hlook
  simp only [hsave]

/-- Success-path characterization of `processBatch` when the id is present in
a well-formed repository: the batch succeeds, the registry of ids is
unchanged, the stored point becomes the pure left fold of `Move` over the
fetched copy, and the emission behaviour is exactly "record and try-send if
changed". -/
theorem processBatch_ok_spec (ctx : GoContext) (st : DBState) (id : Int)
    (cmds : List MoveCommand) (ls : Point) (ch : List Point) (r₀ : Ref)
    (hc : ctx.cancelled = false) (hwf : st.WF)
    (hlook : mapLookup st.points id = some r₀) :
    ∃ st' ls' ch',
      MovePointUC.processBatch ctx st id cmds ls ch = .ok (st', ls', ch') ∧
      st'.points = st.points ∧
      st'.heap.cells r₀
        = cmds.foldl (fun q cmd => q.Move cmd.DX cmd.DY) (st.heap.cells r₀) ∧
      (if (cmds.foldl (fun q cmd => q.Move cmd.DX cmd.DY) (st.heap.cells r₀)).X ≠ ls.X ∨
          (cmds.foldl (fun q cmd => q.Move cmd.DX cmd.DY) (st.heap.cells r₀)).Y ≠ ls.Y then
         ls' = { ls with
                 X := (cmds.foldl (fun q cmd => q.Move cmd.DX cmd.DY) (st.heap.cells r₀)).X,
                 Y := (cmds.foldl (fun q cmd => q.Move cmd.DX cmd.DY) (st.heap.cells r₀)).Y } ∧
         ch' = (chanTrySend positionChanCap ch
                 { X := (cmds.foldl (fun q cmd => q.Move cmd.DX cmd.DY) (st.heap.cells r₀)).X,
                   Y := (cmds.foldl (fun q cmd => q.Move cmd.DX cmd.DY) (st.heap.cells r₀)).Y,
                   MaxX := 0, MaxY := 0 }).1
       else
         ls' = ls ∧ ch' = ch) := by
  have hr₀ : r₀ < st.heap.nextRef := hwf _ (mapLookup_mem hlook)
  have hne : st.heap.nextRef ≠ r₀ := (Nat.ne_of_lt hr₀).symm
  rw [processBatch_eq ctx st id cmds ls ch r₀ hc hlook]
  dsimp only
  have hcellρ : (st.heap.alloc (st.heap.cells r₀)).2.cells st.heap.nextRef
      = st.heap.cells r₀ := Heap.cells_alloc_self st.heap (st.heap.cells r₀)
  have hfold :
      (cmds.foldl
        (fun h cmd => h.write st.heap.nextRef ((h.cells st.heap.nextRef).Move cmd.DX cmd.DY))
        (st.heap.alloc (st.heap.cells r₀)).2).cells st.heap.nextRef
      = cmds.foldl (fun q cmd => q.Move cmd.DX cmd.DY) (st.heap.cells r₀) := by
    rw [foldl_write_Move_cells, hcellρ]
  rw [Heap.cells_write_other _ _ _ _ hne, hfold]
  by_cases hchg : (cmds.foldl (fun q cmd => q.Move cmd.DX cmd.DY) (st.heap.cells r₀)).X ≠ ls.X ∨
      (cmds.foldl (fun q cmd => q.Move cmd.DX cmd.DY) (st.heap.cells r₀)).Y ≠ ls.Y
  · rw [if_pos hchg]
    refine ⟨_, _, _, rfl, rfl, ?_, ?_⟩
    · rw [Heap.cells_write_self]
    · rw [if_pos hchg]
      exact ⟨rfl, rfl⟩
  · rw [if_neg hchg]
    refine ⟨_, _, _, rfl, rfl, ?_, ?_⟩
    · rw [Heap.cells_write_self]
    · rw [if_neg hchg]
      exact ⟨rfl, rfl⟩

/-! ## Claim C1 -/

/-- Claim C1: for every initial point fetched from the repository and every
finite sequence of Move commands drained in one batch, `processBatch` applies
the commands' deltas in submission order, each step adding `(dx,dy)` and then
clamping to `[0,maxX)×[0,maxY)`, so the final stored position equals the left
fold of clamped addition (`clampedAddSpec`) over the sequence. -/
theorem processBatch_clamped_fold (ctx : GoContext) (st : DBState) (id : Int)
    (cmds : List MoveCommand) (ls : Point) (ch : List Point) (r₀ : Ref)
    (hc : ctx.cancelled = false) (hwf : st.WF)
    (hlook : mapLookup st.points id = some r₀)
    (hmx : 1 ≤ (st.heap.cells r₀).MaxX) (hmy : 1 ≤ (st.heap.cells r₀).MaxY) :
    ∃ st' ls' ch',
      MovePointUC.processBatch ctx st id cmds ls ch = .ok (st', ls', ch') ∧
      mapLookup st'.points id = some r₀ ∧
      ((st'.heap.cells r₀).X, (st'.heap.cells r₀).Y)
        = cmds.foldl
            (fun pos cmd =>
              clampedAddSpec (st.heap.cells r₀).MaxX (st.heap.cells r₀).MaxY pos (cmd.DX, cmd.DY))
            ((st.heap.cells r₀).X, (st.heap.cells r₀).Y) := by
  obtain ⟨st', ls', ch', heq, hpoints, hcell, hrest⟩ :=
    processBatch_ok_spec ctx st id cmds ls ch r₀ hc hwf hlook
  refine ⟨st', ls', ch', heq, ?_, ?_⟩
  · rw [hpoints, hlook]
  · rw [hcell, foldl_Move_spec cmds (st.heap.cells r₀) hmx hmy]

/-- Witness for C1 at the spec's scenario: entity `(400,300)` with bounds
`800×600` (the repository's initial state), commands `{dx:500}` then `{dx:50}`
in one batch; the emitted and stored final x is 799, not 950. -/
theorem processBatch_clamped_fold_witness :
    exCtx.cancelled = false ∧ NewPointRepository.WF ∧
    mapLookup NewPointRepository.points 1 = some 0 ∧
    (1 ≤ (NewPointRepository.heap.cells 0).MaxX ∧ 1 ≤ (NewPointRepository.heap.cells 0).MaxY) ∧
    (∃ st' ls' ch',
      MovePointUC.processBatch exCtx NewPointRepository 1
          [⟨1, 500, 0⟩, ⟨1, 50, 0⟩] ⟨-1, -1, 0, 0⟩ [] = .ok (st', ls', ch') ∧
      mapLookup st'.points 1 = some 0 ∧
      ((st'.heap.cells 0).X, (st'.heap.cells 0).Y)
        = [(⟨1, 500, 0⟩ : MoveCommand), ⟨1, 50, 0⟩].foldl
            (fun pos cmd =>
              clampedAddSpec (NewPointRepository.heap.cells 0).MaxX
                (NewPointRepository.heap.cells 0).MaxY pos (cmd.DX, cmd.DY))
            ((NewPointRepository.heap.cells 0).X, (NewPointRepository.heap.cells 0).Y)) ∧
    (MovePointUC.processBatch exCtx NewPointRepository 1
        [⟨1, 500, 0⟩, ⟨1, 50, 0⟩] ⟨-1, -1, 0, 0⟩ []).toOption.map (fun out => out.2.2)
      = some [⟨799, 300, 0, 0⟩] :=
  ⟨rfl, by decide, by decide, by decide,
   processBatch_clamped_fold exCtx NewPointRepository 1 [⟨1, 500, 0⟩, ⟨1, 50, 0⟩]
     ⟨-1, -1, 0, 0⟩ [] 0 rfl (by decide) (by decide) (by decide) (by decide),
   by decide⟩

/-! ## Claim C3 -/

/-- Claim C3 counterexample: for the constructed point with `MaxX = MaxY = -3`,
a `Move(0,0)` leaves `X = -4 < 0`, so the invariant `0 ≤ X < MaxX` fails after
a mutation through `Move`. -/
theorem move_invariant_cex :
    c3point.MaxX = -3 ∧ c3point.MaxY = -3 ∧
    (c3point.Move 0 0).X = -4 ∧ (c3point.Move 0 0).X < 0 ∧
    (c3point.Move 0 0).Y = -4 ∧ (c3point.Move 0 0).Y < 0 := by
  decide

/-- Claim C3 amended: whenever the boundaries are at least 1 — which holds for
every `NewPoint` construction from nonnegative arguments, since zero arguments
become the positive defaults — every mutation through `Move` re-establishes
`0 ≤ X < MaxX ∧ 0 ≤ Y < MaxY`, and `Move` never changes the boundaries. -/
theorem move_invariant_bounds :
    (∀ (p : Point) (dx dy : Int), 1 ≤ p.MaxX → 1 ≤ p.MaxY →
      0 ≤ (p.Move dx dy).X ∧ (p.Move dx dy).X < (p.Move dx dy).MaxX ∧
      0 ≤ (p.Move dx dy).Y ∧ (p.Move dx dy).Y < (p.Move dx dy).MaxY ∧
      (p.Move dx dy).MaxX = p.MaxX ∧ (p.Move dx dy).MaxY = p.MaxY) ∧
    (∀ x y mx my : Int, 0 ≤ mx → 0 ≤ my →
      1 ≤ (NewPoint x y mx my).MaxX ∧ 1 ≤ (NewPoint x y mx my).MaxY) := by
  constructor
  · intro p dx dy hx hy
    refine ⟨?_, ?_, ?_, ?_, rfl, rfl⟩ <;>
      · simp only [Point.Move, Point.Clamp]
        split_ifs <;> omega
  · intro x y mx my hx hy
    constructor <;>
      · simp only [NewPoint, DefaultMaxX, DefaultMaxY]
        split_ifs with h <;> omega

/-- Witness for the amended C3 at a concrete point and delta. -/
theorem move_invariant_bounds_witness :
    1 ≤ (⟨400, 300, 800, 600⟩ : Point).MaxX ∧ 1 ≤ (⟨400, 300, 800, 600⟩ : Point).MaxY ∧
    (0 ≤ ((⟨400, 300, 800, 600⟩ : Point).Move 500 0).X ∧
     ((⟨400, 300, 800, 600⟩ : Point).Move 500 0).X
        < ((⟨400, 300, 800, 600⟩ : Point).Move 500 0).MaxX ∧
     0 ≤ ((⟨400, 300, 800, 600⟩ : Point).Move 500 0).Y ∧
     ((⟨400, 300, 800, 600⟩ : Point).Move 500 0).Y
        < ((⟨400, 300, 800, 600⟩ : Point).Move 500 0).MaxY ∧
     ((⟨400, 300, 800, 600⟩ : Point).Move 500 0).MaxX = (⟨400, 300, 800, 600⟩ : Point).MaxX ∧
     ((⟨400, 300, 800, 600⟩ : Point).Move 500 0).MaxY = (⟨400, 300, 800, 600⟩ : Point).MaxY) :=
  ⟨by decide, by decide,
   move_invariant_bounds.1 ⟨400, 300, 800, 600⟩ 500 0 (by decide) (by decide)⟩

/-! ## Claim C4 -/

/-- Claim C4: `ClientSession.Push` never blocks: with fewer than 50 queued
commands the command is appended at the tail of the inbox; with a saturated
inbox the inbox is returned unchanged (the newest command is silently
dropped). -/
theorem push_nonblocking_drop_newest (inbox : List MoveCommand) (cmd : MoveCommand) :
    (inbox.length < 50 → ClientSession.Push inbox cmd = inbox ++ [cmd]) ∧
    (50 ≤ inbox.length → ClientSession.Push inbox cmd = inbox) := by
  constructor
  · intro h
    simp [ClientSession.Push, chanTrySend, moveChanCap, h]
  · intro h
    simp [ClientSession.Push, chanTrySend, moveChanCap, Nat.not_lt.mpr h]

/-- Witness for C4: a push into an empty inbox appends; a push into a
saturated inbox of 50 commands leaves it unchanged. -/
theorem push_nonblocking_drop_newest_witness :
    ([] : List MoveCommand).length < 50 ∧
    ClientSession.Push [] ⟨1, 2, 3⟩ = [⟨1, 2, 3⟩] ∧
    50 ≤ (List.replicate 50 (⟨1, 2, 3⟩ : MoveCommand)).length ∧
    ClientSession.Push (List.replicate 50 ⟨1, 2, 3⟩) ⟨1, 4, 5⟩
      = List.replicate 50 ⟨1, 2, 3⟩ :=
  ⟨by decide, (push_nonblocking_drop_newest [] ⟨1, 2, 3⟩).1 (by decide), by decide,
   (push_nonblocking_drop_newest (List.replicate 50 ⟨1, 2, 3⟩) ⟨1, 4, 5⟩).2 (by decide)⟩

/-! ## Claim C9 -/

/-- Claim C9: `NewPoint` substitutes each zero-valued argument independently
by its default and stores every nonzero argument verbatim, with no clamping;
hence it never returns `X = 0` or `Y = 0`, and for `x = 1000, maxX = 800` it
returns a point with `MaxX ≤ X`, violating `0 ≤ X < MaxX` until the first
`Move` clamps it. -/
theorem newPoint_zero_defaults_no_clamp :
    (∀ x y mx my : Int,
      (NewPoint x y mx my).X = (if x = 0 then DefaultX else x) ∧
      (NewPoint x y mx my).Y = (if y = 0 then DefaultY else y) ∧
      (NewPoint x y mx my).MaxX = (if mx = 0 then DefaultMaxX else mx) ∧
      (NewPoint x y mx my).MaxY = (if my = 0 then DefaultMaxY else my) ∧
      (NewPoint x y mx my).X ≠ 0 ∧ (NewPoint x y mx my).Y ≠ 0) ∧
    ((NewPoint 1000 300 800 600).X = 1000 ∧ (NewPoint 1000 300 800 600).MaxX = 800 ∧
     (NewPoint 1000 300 800 600).MaxX ≤ (NewPoint 1000 300 800 600).X) := by
  constructor
  · intro x y mx my
    refine ⟨rfl, rfl, rfl, rfl, ?_, ?_⟩
    · simp only [NewPoint, DefaultX]
      split_ifs with h
      · decide
      · exact h
    · simp only [NewPoint, DefaultY]
      split_ifs with h
      · decide
      · exact h
  · decide

/-- Witness for C9 at concrete arguments. -/
theorem newPoint_zero_defaults_no_clamp_witness :
    (NewPoint 0 0 0 0).X = (if (0 : Int) = 0 then DefaultX else 0) ∧
    (NewPoint 3 4 800 600).X ≠ 0 :=
  ⟨(newPoint_zero_defaults_no_clamp.1 0 0 0 0).1,
   (newPoint_zero_defaults_no_clamp.1 3 4 800 600).2.2.2.2.1⟩

/-! ## Claim C2

The session loop runs `processBatch` once per batch tick.  The `c2s` trace
(defined with the concrete states above) follows one session from its start
(`lastSentPos = (-1,-1)`, empty outbox) through seven ticks; between ticks 6
and 7 the forwarding loop receives one value from the outbox (FIFO). -/

/-- Claim C2 counterexample: the comparison is against `lastSentPos`, which is
updated even when the non-blocking send drops the update — not against what
was actually emitted.  In the trace, the last position actually emitted on the
outbox is (405,300) (tick 5, the outbox ends with it and tick 6 appends
nothing); tick 7's post-batch position is again (405,300), yet a new (405,300)
update IS appended — an emission whose position equals the last position
actually emitted on that outbox, which the claim rules out. -/
theorem processBatch_emit_equals_last_emitted_cex :
    c2s5.2.2 = [⟨401, 300, 0, 0⟩, ⟨402, 300, 0, 0⟩, ⟨403, 300, 0, 0⟩,
                ⟨404, 300, 0, 0⟩, ⟨405, 300, 0, 0⟩] ∧
    c2s6.2.2 = c2s5.2.2 ∧
    (c2s6.2.1.X, c2s6.2.1.Y) = (406, 300) ∧
    ((c2s6.1.heap.cells 0).X, (c2s6.1.heap.cells 0).Y) = (406, 300) ∧
    c2s6d.2.2 = [⟨402, 300, 0, 0⟩, ⟨403, 300, 0, 0⟩, ⟨404, 300, 0, 0⟩, ⟨405, 300, 0, 0⟩] ∧
    c2s7.2.2 = [⟨402, 300, 0, 0⟩, ⟨403, 300, 0, 0⟩, ⟨404, 300, 0, 0⟩,
                ⟨405, 300, 0, 0⟩, ⟨405, 300, 0, 0⟩] := by
  decide

/-- Claim C2 amended: per batch tick at most one update is appended to the
position outbox; an update is appended only when the post-batch position
differs from the last *recorded* position `lastSentPos`; when the position is
unchanged nothing is emitted and `lastSentPos` is untouched; on a full outbox
nothing is appended (drop-if-full) while `lastSentPos` is still updated — so
the comparison is against the last attempted emission, not necessarily the
last actually emitted one. -/
theorem processBatch_emit_once_if_changed (ctx : GoContext) (st : DBState) (id : Int)
    (cmds : List MoveCommand) (ls : Point) (ch : List Point) (r₀ : Ref)
    (hc : ctx.cancelled = false) (hwf : st.WF)
    (hlook : mapLookup st.points id = some r₀) :
    ∃ st' ls' ch',
      MovePointUC.processBatch ctx st id cmds ls ch = .ok (st', ls', ch') ∧
      (ch' = ch ∨ ch' = ch ++ [{ X := ls'.X, Y := ls'.Y, MaxX := 0, MaxY := 0 }]) ∧
      (∀ q, ch' = ch ++ [q] → ¬(q.X = ls.X ∧ q.Y = ls.Y)) ∧
      ((ls'.X = ls.X ∧ ls'.Y = ls.Y) → (ch' = ch ∧ ls' = ls)) ∧
      (positionChanCap ≤ ch.length → ch' = ch) := by
  obtain ⟨st', ls', ch', heq, hpoints, hcell, hbranch⟩ :=
    processBatch_ok_spec ctx st id cmds ls ch r₀ hc hwf hlook
  refine ⟨st', ls', ch', heq, ?_⟩
  by_cases hchg :
      (cmds.foldl (fun q cmd => q.Move cmd.DX cmd.DY) (st.heap.cells r₀)).X ≠ ls.X ∨
      (cmds.foldl (fun q cmd => q.Move cmd.DX cmd.DY) (st.heap.cells r₀)).Y ≠ ls.Y
  · rw [if_pos hchg] at hbranch
    obtain ⟨hls, hch⟩ := hbranch
    by_cases hlen : ch.length < positionChanCap
    · have hch' : ch' = ch ++
          [{ X := (cmds.foldl (fun q cmd => q.Move cmd.DX cmd.DY) (st.heap.cells r₀)).X,
             Y := (cmds.foldl (fun q cmd => q.Move cmd.DX cmd.DY) (st.heap.cells r₀)).Y,
             MaxX := 0, MaxY := 0 }] := by
        rw [hch]
        simp [chanTrySend, hlen]
      refine ⟨?_, ?_, ?_, ?_⟩
      · right
        rw [hch', hls]
      · intro q hq
        rw [hch'] at hq
        have hq' := List.append_cancel_left hq.symm
        have : q = { X := (cmds.foldl (fun q cmd => q.Move cmd.DX cmd.DY) (st.heap.cells r₀)).X,
                     Y := (cmds.foldl (fun q cmd => q.Move cmd.DX cmd.DY) (st.heap.cells r₀)).Y,
                     MaxX := 0, MaxY := 0 } := by
          injection hq'
        rw [this]
        intro hcon
        rcases hchg with hx | hy
        · exact hx hcon.1
        · exact hy hcon.2
      · intro hsame
        exfalso
        rw [hls] at hsame
        rcases hchg with hx | hy
        · exact hx hsame.1
        · exact hy hsame.2
      · intro hcap
        exact absurd hlen (Nat.not_lt.mpr hcap)
    · have hch' : ch' = ch := by
        rw [hch]
        simp [chanTrySend, hlen]
      refine ⟨Or.inl hch', ?_, ?_, fun _ => hch'⟩
      · intro q hq
        rw [hch'] at hq
        exfalso
        have := congrArg List.length hq
        simp at this
      · intro hsame
        exfalso
        rw [hls] at hsame
        rcases hchg with hx | hy
        · exact hx hsame.1
        · exact hy hsame.2
  · rw [if_neg hchg] at hbranch
    obtain ⟨hls, hch⟩ := hbranch
    refine ⟨Or.inl hch, ?_, fun _ => ⟨hch, hls⟩, fun _ => hch⟩
    intro q hq
    rw [hch] at hq
    exfalso
    have := congrArg List.length hq
    simp at this

/-- Witness for the amended C2 at a concrete successful batch. -/
theorem processBatch_emit_once_if_changed_witness :
    exCtx.cancelled = false ∧ NewPointRepository.WF ∧
    mapLookup NewPointRepository.points 1 = some 0 ∧
    (∃ st' ls' ch',
      MovePointUC.processBatch exCtx NewPointRepository 1 [⟨1, 1, 0⟩] ⟨-1, -1, 0, 0⟩ []
        = .ok (st', ls', ch') ∧
      (ch' = ([] : List Point) ∨ ch' = [] ++ [{ X := ls'.X, Y := ls'.Y, MaxX := 0, MaxY := 0 }]) ∧
      (∀ q, ch' = [] ++ [q] → ¬(q.X = (-1 : Int) ∧ q.Y = (-1 : Int))) ∧
      ((ls'.X = (-1 : Int) ∧ ls'.Y = (-1 : Int)) → (ch' = [] ∧ ls' = ⟨-1, -1, 0, 0⟩)) ∧
      (positionChanCap ≤ ([] : List Point).length → ch' = [])) :=
  ⟨rfl, by decide, by decide,
   processBatch_emit_once_if_changed exCtx NewPointRepository 1 [⟨1, 1, 0⟩]
     ⟨-1, -1, 0, 0⟩ [] 0 rfl (by decide) (by decide)⟩

/-! ## Claim C6 -/

/-- Claim C6: `Room.Join` is idempotent: a first join of a non-member returns
true and adds exactly one membership entry; a second join of the same
connection returns false, leaves the member set and the connection heap
unchanged, and the member list still counts exactly one entry for that
connection. -/
theorem room_join_idempotent (r : Room) (h : ConnHeap) (c : Nat) (hnm : c ∉ r.clients) :
    (Room.Join r h c).1 = true ∧
    (Room.Join r h c).2.1.clients = r.clients ++ [c] ∧
    Room.Size (Room.Join r h c).2.1 = Room.Size r + 1 ∧
    (Room.Join r h c).2.1.clients.count c = 1 ∧
    (Room.Join (Room.Join r h c).2.1 (Room.Join r h c).2.2 c).1 = false ∧
    (Room.Join (Room.Join r h c).2.1 (Room.Join r h c).2.2 c).2.1 = (Room.Join r h c).2.1 ∧
    (Room.Join (Room.Join r h c).2.1 (Room.Join r h c).2.2 c).2.2 = (Room.Join r h c).2.2 ∧
    (Room.Join (Room.Join r h c).2.1 (Room.Join r h c).2.2 c).2.1.clients.count c = 1 := by
  have h1 : Room.Join r h c
      = (true, { r with clients := r.clients ++ [c] }, Connection.Subscribe h c r.id) := by
    simp [Room.Join, hnm]
  have hcount : (r.clients ++ [c]).count c = 1 := by
    rw [List.count_append]
    simp [List.count_eq_zero.mpr hnm]
  have hmem2 : c ∈ ({ r with clients := r.clients ++ [c] } : Room).clients := by simp
  have h2 : Room.Join { r with clients := r.clients ++ [c] } (Connection.Subscribe h c r.id) c
      = (false, { r with clients := r.clients ++ [c] }, Connection.Subscribe h c r.id) := by
    simp [Room.Join, hmem2]
  rw [h1]
  dsimp only
  rw [h2]
  exact ⟨rfl, rfl, by simp [Room.Size], hcount, rfl, rfl, rfl, hcount⟩

/-- Witness for C6 at a concrete empty room and connection 0. -/
theorem room_join_idempotent_witness :
    0 ∉ (⟨"point_1", []⟩ : Room).clients ∧
    (Room.Join ⟨"point_1", []⟩ c6heap 0).1 = true ∧
    (Room.Join (Room.Join ⟨"point_1", []⟩ c6heap 0).2.1
        (Room.Join ⟨"point_1", []⟩ c6heap 0).2.2 0).1 = false ∧
    (Room.Join (Room.Join ⟨"point_1", []⟩ c6heap 0).2.1
        (Room.Join ⟨"point_1", []⟩ c6heap 0).2.2 0).2.1.clients.count 0 = 1 :=
  ⟨by decide,
   (room_join_idempotent ⟨"point_1", []⟩ c6heap 0 (by decide)).1,
   (room_join_idempotent ⟨"point_1", []⟩ c6heap 0 (by decide)).2.2.2.2.1,
   (room_join_idempotent ⟨"point_1", []⟩ c6heap 0 (by decide)).2.2.2.2.2.2.2⟩

/-! ## Claim C7 -/

/-- Claim C7 counterexample: the code retries the lookup by the type tag only
when the tag is non-empty.  With a handler registered under `""` and a message
with an unregistered action and empty type tag, a lookup by the type tag would
find the handler (whose result is `ok`), yet `Route` returns the unknown-action
error instead of the invoked handler's result — so the claim's unconditional
"retries the lookup by the message's type tag" fails. -/
theorem route_unknown_action_cex :
    Router.Route c7handlers 0 c7msg = .error ErrUnknownAction ∧
    c7handlers c7msg.TypeTag = some routeOkHandler ∧
    routeOkHandler 0 c7msg = .ok () := by
  refine ⟨?_, rfl, rfl⟩
  rfl

/-- Claim C7 amended: `Route` dispatches to the handler registered for the
message's action; if none is registered and the type tag is *non-empty* it
retries by the type tag; otherwise (empty tag, or no handler under the tag) it
returns the distinguished unknown-action error, which does not depend on any
handler; when a handler is found, its result is returned unchanged. -/
theorem route_dispatch_cases (hs : Handlers) (conn : Nat) (msg : RMessage) :
    (∀ handler, hs msg.Action = some handler →
      Router.Route hs conn msg = handler conn msg) ∧
    (hs msg.Action = none → msg.TypeTag ≠ "" → ∀ handler, hs msg.TypeTag = some handler →
      Router.Route hs conn msg = handler conn msg) ∧
    (hs msg.Action = none → (msg.TypeTag = "" ∨ hs msg.TypeTag = none) →
      Router.Route hs conn msg = .error ErrUnknownAction) := by
  refine ⟨?_, ?_, ?_⟩
  · intro handler hfind
    simp [Router.Route, hfind]
  · intro hnone htag handler hfind
    simp [Router.Route, hnone, htag, hfind]
  · intro hnone hcase
    rcases hcase with htag | hnone2
    · simp [Router.Route, hnone, htag]
    · by_cases htag : msg.TypeTag = ""
      · simp [Router.Route, hnone, htag]
      · simp [Router.Route, hnone, htag, hnone2]

/-- Witness for the amended C7: an empty table yields the unknown-action error,
and a registered action handler is invoked with its result returned. -/
theorem route_dispatch_cases_witness :
    Router.emptyHandlers "move" = none ∧
    Router.Route Router.emptyHandlers 0 ⟨"move", "", ""⟩ = .error ErrUnknownAction ∧
    (Router.Handle Router.emptyHandlers "move" routeOkHandler) "move" = some routeOkHandler ∧
    Router.Route (Router.Handle Router.emptyHandlers "move" routeOkHandler) 0 ⟨"move", "", ""⟩
      = routeOkHandler 0 ⟨"move", "", ""⟩ :=
  ⟨rfl,
   (route_dispatch_cases Router.emptyHandlers 0 ⟨"move", "", ""⟩).2.2 rfl (Or.inl rfl),
   by simp [Router.Handle],
   (route_dispatch_cases (Router.Handle Router.emptyHandlers "move" routeOkHandler) 0
       ⟨"move", "", ""⟩).1 routeOkHandler (by simp [Router.Handle])⟩

/-! ## Claim C8 -/

/-- Claim C8: `BroadcastToRoom` on an unknown room id returns the error
carrying the `ROOM_NOT_FOUND` code and changes nothing — not the room
registry, not the connection registry, not any connection's outbox; on a known
room it returns nil. -/
theorem broadcast_unknown_room_error (m : MState) (roomID : String) (message : Int) :
    (mapLookup m.rooms roomID = none →
      (Manager.BroadcastToRoom m roomID message).2
          = some (GoError.ws "ROOM_NOT_FOUND" "Room not found") ∧
      (Manager.BroadcastToRoom m roomID message).1.rooms = m.rooms ∧
      (Manager.BroadcastToRoom m roomID message).1.connections = m.connections ∧
      (∀ c, (Manager.BroadcastToRoom m roomID message).1.conns c = m.conns c)) ∧
    (∀ room, mapLookup m.rooms roomID = some room →
      (Manager.BroadcastToRoom m roomID message).2 = none) := by
  constructor
  · intro hnone
    simp [Manager.BroadcastToRoom, hnone, ErrRoomNotFound]
  · intro room hsome
    simp [Manager.BroadcastToRoom, hsome]

/-- Witness for C8: an unknown room returns the ROOM_NOT_FOUND error, a known
room returns nil. -/
theorem broadcast_unknown_room_error_witness :
    mapLookup c8mgr.rooms "nope" = none ∧
    (Manager.BroadcastToRoom c8mgr "nope" 5).2
      = some (GoError.ws "ROOM_NOT_FOUND" "Room not found") ∧
    mapLookup c8mgr.rooms "point_1" = some ⟨"point_1", []⟩ ∧
    (Manager.BroadcastToRoom c8mgr "point_1" 5).2 = none :=
  ⟨rfl,
   ((broadcast_unknown_room_error c8mgr "nope" 5).1 rfl).1,
   rfl,
   (broadcast_unknown_room_error c8mgr "point_1" 5).2 ⟨"point_1", []⟩ rfl⟩

/-! ## Claim C5 -/

theorem Connection.close_closed (h : ConnHeap) (c : Nat) :
    ((Connection.Close h c) c).closed = true := by
  unfold Connection.Close
  split_ifs with hcl
  · exact hcl
  · simp

theorem Connection.close_mono (h : ConnHeap) (c x : Nat) (hx : (h x).closed = true) :
    ((Connection.Close h c) x).closed = true := by
  unfold Connection.Close
  split_ifs with hcl
  · exact hx
  · by_cases hxc : x = c
    · subst hxc
      simp
    · simp [hxc, hx]

theorem foldl_close_mono (l : List Nat) : ∀ (h : ConnHeap) (x : Nat),
    (h x).closed = true → ((l.foldl Connection.Close h) x).closed = true := by
  induction l with
  | nil => intro h x hx; exact hx
  | cons a as ih =>
    intro h x hx
    simp only [List.foldl_cons]
    exact ih _ x (Connection.close_mono h a x hx)

theorem foldl_close_closes (l : List Nat) : ∀ (h : ConnHeap) (c : Nat), c ∈ l →
    ((l.foldl Connection.Close h) c).closed = true := by
  induction l with
  | nil => intro h c hc; cases hc
  | cons a as ih =>
    intro h c hc
    simp only [List.foldl_cons]
    rcases List.mem_cons.mp hc with hca | hmem
    · subst hca
      exact foldl_close_mono as _ c (Connection.close_closed h c)
    · exact ih _ c hmem

theorem Connection.writeJSON_closed (h : ConnHeap) (c : Nat) (v : Int)
    (hc : (h c).closed = true) : (Connection.WriteJSON h c v).1 = h := by
  unfold Connection.WriteJSON
  rw [if_pos hc]

/-- Writing to a list of connections that are all closed delivers nothing. -/
theorem writeJSON_fold_noop (l : List Nat) : ∀ (h : ConnHeap) (v : Int),
    (∀ c ∈ l, (h c).closed = true) →
    l.foldl (fun h' c => (Connection.WriteJSON h' c v).1) h = h := by
  induction l with
  | nil => intro h v _; rfl
  | cons a as ih =>
    intro h v hall
    simp only [List.foldl_cons]
    rw [Connection.writeJSON_closed h a v (hall a (List.mem_cons_self a as))]
    exact ih h v (fun c hc => hall c (List.mem_cons_of_mem a hc))

/-- A second `Shutdown` (the `sync.Once` already consumed) does nothing. -/
theorem shutdown_of_done (m : MState) (hdone : m.shutdownOnceDone = true) :
    Manager.Shutdown m = m := by
  unfold Manager.Shutdown
  rw [hdone]
  simp

/-- Claim C5 counterexample: `Shutdown` closes the tracked connection but does
not unregister it (deregistration happens later, in each connection handler's
deferred cleanup), so immediately after `Shutdown()` returns
`GetConnectionCount()` is still 1, not 0. -/
theorem shutdown_connection_count_cex :
    Manager.GetConnectionCount (Manager.Shutdown c5mgr) = 1 ∧
    ((Manager.Shutdown c5mgr).conns 7).closed = true ∧
    (Manager.Shutdown c5mgr).shutdownOnceDone = true := by
  refine ⟨rfl, ?_, rfl⟩
  rfl

/-- Claim C5 amended: a first `Shutdown` leaves the connection registry (and
hence `GetConnectionCount`) untouched — the count reaches 0 only after each
connection's handler cleanup runs — but closes the shutdown channel and every
tracked connection, after which no broadcast (`BroadcastToRoom` on rooms whose
members are tracked, or `BroadcastToAll`) can deliver anything to any
connection; and the shutdown sequence runs exactly once: a repeated `Shutdown`
is a no-op. -/
theorem shutdown_closes_and_silences (m : MState)
    (hrooms : ∀ rm ∈ m.rooms, ∀ c ∈ rm.2.clients, c ∈ m.connections)
    (honce : m.shutdownOnceDone = false) :
    (Manager.Shutdown m).connections = m.connections ∧
    Manager.GetConnectionCount (Manager.Shutdown m) = Manager.GetConnectionCount m ∧
    (Manager.Shutdown m).rooms = m.rooms ∧
    (Manager.Shutdown m).shutdownClosed = true ∧
    (∀ c ∈ m.connections, ((Manager.Shutdown m).conns c).closed = true) ∧
    (∀ roomID message,
      ((Manager.BroadcastToRoom (Manager.Shutdown m) roomID message).1).conns
        = (Manager.Shutdown m).conns) ∧
    (∀ message,
      (Manager.BroadcastToAll (Manager.Shutdown m) message).conns
        = (Manager.Shutdown m).conns) ∧
    Manager.Shutdown (Manager.Shutdown m) = Manager.Shutdown m := by
  have hM : Manager.Shutdown m = { m with
      shutdownOnceDone := true
      shutdownClosed := true
      conns := m.connections.foldl (fun h c => Connection.Close h c) m.conns } := by
    unfold Manager.Shutdown
    rw [honce]
    simp
  have hclosed : ∀ c ∈ m.connections, ((Manager.Shutdown m).conns c).closed = true := by
    intro c hc
    rw [hM]
    exact foldl_close_closes m.connections m.conns c hc
  refine ⟨by rw [hM], by rw [hM]; rfl, by rw [hM], by rw [hM], hclosed, ?_, ?_, ?_⟩
  · intro roomID message
    unfold Manager.BroadcastToRoom
    cases hfind : mapLookup (Manager.Shutdown m).rooms roomID with
    | none => rfl
    | some room =>
      dsimp only
      unfold Room.Broadcast
      apply writeJSON_fold_noop
      intro c hcr
      have hroomsM : (Manager.Shutdown m).rooms = m.rooms := by rw [hM]
      rw [hroomsM] at hfind
      exact hclosed c (hrooms _ (mapLookup_mem hfind) c hcr)
  · intro message
    unfold Manager.BroadcastToAll
    dsimp only
    apply writeJSON_fold_noop
    intro c hc
    have hconnsM : (Manager.Shutdown m).connections = m.connections := by rw [hM]
    rw [hconnsM] at hc
    exact hclosed c hc
  · apply shutdown_of_done
    rw [hM]

/-- Witness for the amended C5 at a concrete manager. -/
theorem shutdown_closes_and_silences_witness :
    (∀ rm ∈ c5wMgr.rooms, ∀ c ∈ rm.2.clients, c ∈ c5wMgr.connections) ∧
    c5wMgr.shutdownOnceDone = false ∧
    (Manager.Shutdown c5wMgr).shutdownClosed = true ∧
    ((Manager.Shutdown c5wMgr).conns 0).closed = true ∧
    Manager.Shutdown (Manager.Shutdown c5wMgr) = Manager.Shutdown c5wMgr :=
  ⟨by decide, rfl,
   (shutdown_closes_and_silences c5wMgr (by decide) rfl).2.2.2.1,
   (shutdown_closes_and_silences c5wMgr (by decide) rfl).2.2.2.2.1 0 (by decide),
   (shutdown_closes_and_silences c5wMgr (by decide) rfl).2.2.2.2.2.2.2⟩

/-! ## Claim C10 -/

/-- Claim C10: the repository's `Get` always returns a fresh copy — the
returned reference is distinct from every stored reference, the stored cells
and the id registry are untouched, and any write through the returned
reference (as the batch loop's `Move`s perform) leaves every stored point
unchanged until `Save`; `Get` on an unknown id returns a default-valued point
(x 400, y 300) without inserting it; and `Get`/`Save` with a cancelled context
or a nil point return an error with the repository state unchanged. -/
theorem repository_get_fresh_copy (ctx : GoContext) (st : DBState) (id : Int) :
    (ctx.cancelled = false → st.WF →
      ∃ ρ st1, PointRepository.Get ctx st id = .ok (ρ, st1) ∧
        st1.points = st.points ∧
        (∀ pr ∈ st.points, pr.2 ≠ ρ) ∧
        (∀ pr ∈ st.points, st1.heap.cells pr.2 = st.heap.cells pr.2) ∧
        (∀ q, ∀ pr ∈ st.points, (st1.heap.write ρ q).cells pr.2 = st.heap.cells pr.2)) ∧
    (ctx.cancelled = false → mapLookup st.points id = none →
      ∃ ρ st1, PointRepository.Get ctx st id = .ok (ρ, st1) ∧
        (st1.heap.cells ρ).X = 400 ∧ (st1.heap.cells ρ).Y = 300 ∧
        st1.points = st.points ∧ mapLookup st1.points id = none) ∧
    (ctx.cancelled = true →
      PointRepository.Get ctx st id = .error (.str "context canceled") ∧
      (∀ p, PointRepository.Save ctx st id p = .error (.str "context canceled"))) ∧
    (ctx.cancelled = false →
      PointRepository.Save ctx st id none = .error (.str "point cannot be nil")) := by
  refine ⟨?_, ?_, ?_, ?_⟩
  · intro hc hwf
    unfold PointRepository.Get
    rw [hc]
    simp only [Bool.false_eq_true, if_false]
    refine ⟨_, _, rfl, rfl, ?_, ?_, ?_⟩
    · intro pr hpr
      rw [Heap.alloc_fst]
      exact Nat.ne_of_lt (hwf pr hpr)
    · intro pr hpr
      exact Heap.cells_alloc_other st.heap _ pr.2 (Nat.ne_of_lt (hwf pr hpr))
    · intro q pr hpr
      rw [Heap.cells_write_other _ _ _ _ (by rw [Heap.alloc_fst]; exact Nat.ne_of_lt (hwf pr hpr))]
      exact Heap.cells_alloc_other st.heap _ pr.2 (Nat.ne_of_lt (hwf pr hpr))
  · intro hc hnone
    unfold PointRepository.Get
    rw [hc]
    simp only [Bool.false_eq_true, if_false, hnone]
    cases hhead : st.points.head? with
    | none =>
      refine ⟨_, _, rfl, ?_, ?_, rfl, hnone⟩ <;>
        · rw [Heap.alloc_fst, Heap.cells_alloc_self]
          rfl
    | some pr =>
      refine ⟨_, _, rfl, ?_, ?_, rfl, hnone⟩ <;>
        · rw [Heap.alloc_fst, Heap.cells_alloc_self]
          rfl
  · intro hcancel
    unfold PointRepository.Get PointRepository.Save
    rw [hcancel]
    exact ⟨rfl, fun p => rfl⟩
  · intro hc
    unfold PointRepository.Save
    rw [hc]
    rfl

/-- Witness for C10 at the initial repository: `Get` of the unknown id 2
returns the default point without inserting it; `Save` of a nil point and a
cancelled-context `Get` error out. -/
theorem repository_get_fresh_copy_witness :
    exCtx.cancelled = false ∧ NewPointRepository.WF ∧
    mapLookup NewPointRepository.points 2 = none ∧
    (∃ ρ st1, PointRepository.Get exCtx NewPointRepository 2 = .ok (ρ, st1) ∧
      (st1.heap.cells ρ).X = 400 ∧ (st1.heap.cells ρ).Y = 300 ∧
      st1.points = NewPointRepository.points ∧ mapLookup st1.points 2 = none) ∧
    PointRepository.Save exCtx NewPointRepository 2 none
      = .error (.str "point cannot be nil") ∧
    PointRepository.Get ⟨true⟩ NewPointRepository 1 = .error (.str "context canceled") :=
  ⟨rfl, by decide, by decide,
   (repository_get_fresh_copy exCtx NewPointRepository 2).2.1 rfl (by decide),
   (repository_get_fresh_copy exCtx NewPointRepository 2).2.2.2 rfl,
   ((repository_get_fresh_copy ⟨true⟩ NewPointRepository 1).2.2.1 rfl).1⟩

end PointVerify
